import Mathlib

/-!
Shallow embedding of the core of the RAG developer-assistant repository
(indexing and retrieval pipeline) and verification of its specification
claims.

Embedded source files:
* `app/core/chunking.py`   — `CodeChunker`
* `app/core/indexing.py`   — `RepositoryIndexer`, `IndexingManager`
* `app/core/rag.py`        — `RAGPipeline`
* `app/services/vector_store.py`, `app/services/llm.py` — external
  collaborators, modelled as oracle functions supplied through environment
  records.

Python strings are modelled as Lean `String`; the Python string operations
used by the code (`split`, `splitlines`, slicing, `startswith`, `endswith`,
substring test) are defined below directly on `String.data` so that they
match Python semantics exactly and evaluate inside the kernel.
-/

/-- Python `len(s)` (counts Unicode code points, like `String.length`). -/
def pyLen (s : String) : Nat := s.data.length

/-- Python `s.endswith(suffix)`. -/
def pyEndsWith (s suffix : String) : Bool := suffix.data.isSuffixOf s.data

/-- Python `s.startswith(prefix)`. -/
def pyStartsWith (s p : String) : Bool := p.data.isPrefixOf s.data

/-- Auxiliary for `pySplitChar`: split a character list at every occurrence
of `sep`, keeping empty parts (Python `str.split(sep)` semantics). -/
def pySplitCharAux (sep : Char) : List Char → List Char → List String
  | [], acc => [⟨acc.reverse⟩]
  | c :: rest, acc =>
    if c = sep then ⟨acc.reverse⟩ :: pySplitCharAux sep rest []
    else pySplitCharAux sep rest (c :: acc)

/-- Python `s.split(sep)` for a one-character separator: every occurrence of
the separator produces a boundary, empty parts are kept, and the empty
string yields `[""]`. -/
def pySplitChar (s : String) (sep : Char) : List String :=
  pySplitCharAux sep s.data []

/-- Auxiliary for `pySplitlines`: split at `\n`, `\r\n` or `\r`, without a
trailing empty part. -/
def pySplitlinesAux : List Char → List Char → List String
  | [], acc => if acc.isEmpty then [] else [⟨acc.reverse⟩]
  | '\r' :: '\n' :: rest, acc => ⟨acc.reverse⟩ :: pySplitlinesAux rest []
  | '\n' :: rest, acc => ⟨acc.reverse⟩ :: pySplitlinesAux rest []
  | '\r' :: rest, acc => ⟨acc.reverse⟩ :: pySplitlinesAux rest []
  | c :: rest, acc => pySplitlinesAux rest (c :: acc)

/-- Python `s.splitlines()` (restricted to the ASCII line boundaries
`\n`, `\r\n`, `\r`; the Unicode-only boundaries are not modelled, no claim
exercises them). -/
def pySplitlines (s : String) : List String := pySplitlinesAux s.data []

/-- Python `s[-n:] if n > 0 else ""` — the trailing-`n`-characters slice used
at `chunking.py:63`.  For `n ≥ len(s)` it is the whole string, matching
Python negative-index slicing. -/
def pySliceLast (s : String) (n : Nat) : String :=
  if n = 0 then "" else ⟨s.data.drop (s.data.length - n)⟩

/-- Python `sub in s` (substring containment), by checking a prefix match at
every suffix of `s`. -/
def containsSubAux (sub : List Char) : List Char → Bool
  | [] => sub.isPrefixOf []
  | l@(_ :: rest) => sub.isPrefixOf l || containsSubAux sub rest

/-- Python `sub in s`. -/
def pyContains (s sub : String) : Bool := containsSubAux sub.data s.data

/-! ## Chunker (`app/core/chunking.py`) -/

/-- A chunk as produced by `CodeChunker.chunk_code`
(`{"content": ..., "metadata": {"file_path": ..., "start_line": ...}}`). -/
structure Chunk where
  content : String
  file_path : String
  start_line : Nat
  deriving DecidableEq, Repr

/-- External collaborators used by `CodeChunker` and not part of this
repository: the `markdown`+`BeautifulSoup` renderer (`process_markdown`),
the `ast` module (`ast.parse` / `ast.walk` in `process_python`, `none`
models a parse exception, `some names` the `FunctionDef`/`ClassDef` node
names in walk order), and the `re.split` call on the keyword pattern of
`chunking.py:44`. -/
structure ChunkerExternals where
  markdownToText : String → String
  pyAstDefClassNames : String → Option (List String)
  keywordSplit : String → List String

/-- `CodeChunker.process_python` (`chunking.py:20-30`): on a successful
parse, one marker string per `FunctionDef`/`ClassDef` node found by
`ast.walk`; on any exception, fall back to `content.split('\n')`. -/
def process_python (astResult : Option (List String)) (content : String) :
    List String :=
  match astResult with
  | some names => names.map (fun n => "\n\n# " ++ n ++ " starts here\n")
  | none => pySplitChar content '\n'

/-- The split-unit dispatch of `CodeChunker.chunk_code`
(`chunking.py:40-50`), keyed on the file extension. -/
def computeSplits (ext : ChunkerExternals) (content : String)
    (file_path : String) : List String :=
  if pyEndsWith file_path ".py" then
    process_python (ext.pyAstDefClassNames content) content
  else if [".java", ".cpp", ".js", ".ts", ".cs", ".rb", ".php", ".go",
      ".tsx", ".jsx"].any (fun s => pyEndsWith file_path s) then
    ext.keywordSplit content
  else if [".log", ".csv", ".json", ".xml", ".yaml"].any
      (fun s => pyEndsWith file_path s) then
    pySplitlines content
  else
    pySplitChar content '\n'

/-- The chunk-accumulation loop of `CodeChunker.chunk_code`
(`chunking.py:52-76`): `current_chunk` is extended with each split unit;
when `len(current_chunk) + len(split) > chunk_size` the current chunk is
appended to the output (with `start_line = len(chunks) * chunk_size`),
the new current chunk is seeded with `split[-chunk_overlap:]` (empty when
`chunk_overlap == 0`) and the split unit is then appended to it; a nonempty
trailing chunk is flushed at the end. -/
def chunkAccum (chunk_size chunk_overlap : Nat) (file_path : String) :
    List String → String → List Chunk → List Chunk
  | [], current_chunk, chunks =>
    if current_chunk.isEmpty then chunks
    else chunks ++ [⟨current_chunk, file_path, chunks.length * chunk_size⟩]
  | split :: rest, current_chunk, chunks =>
    if pyLen current_chunk + pyLen split > chunk_size then
      chunkAccum chunk_size chunk_overlap file_path rest
        (pySliceLast split chunk_overlap ++ split)
        (chunks ++ [⟨current_chunk, file_path, chunks.length * chunk_size⟩])
    else
      chunkAccum chunk_size chunk_overlap file_path rest
        (current_chunk ++ split) chunks

/-- The Markdown pre-processing step of `chunk_code` (`chunking.py:37-38`):
`.md` files are rendered to plain text before splitting. -/
def mdAdjusted (ext : ChunkerExternals) (content : String)
    (file_path : String) : String :=
  if pyEndsWith file_path ".md" then ext.markdownToText content else content

/-- `CodeChunker.chunk_code` (`chunking.py:32-76`): Markdown files are
first rendered to plain text, the content is split into units by file
type, and the units are accumulated into chunks. -/
def chunk_code (ext : ChunkerExternals) (chunk_size chunk_overlap : Nat)
    (content0 : String) (file_path : String) : List Chunk :=
  chunkAccum chunk_size chunk_overlap file_path
    (computeSplits ext (mdAdjusted ext content0 file_path) file_path) "" []

/-! ## Archive extractor (`RepositoryIndexer._extract_archive`,
`indexing.py:97-123`) -/

/-- The suspicious-path test of `indexing.py:103` and `indexing.py:112`:
`member.name.startswith("/") or ".." in member.name`. -/
def suspiciousEntry (name : String) : Bool :=
  pyStartsWith name "/" || pyContains name ".."

inductive ExtractError where
  /-- `ValueError` raised for an unrecognised archive extension
  (`indexing.py:119`). -/
  | unsupportedFormat
  deriving DecidableEq, Repr

/-- `RepositoryIndexer._extract_archive` (`indexing.py:97-123`), as a
function from the archive path and the list of entry names inside the
archive to the warned-about entries and the entries actually extracted.
For both `.tar.gz` and `.zip` the code loops over the entries and logs a
`"Suspicious path ..., skipping"` warning for each suspicious one — the
`continue` only advances that logging loop — and then calls
`extractall(path=extract_dir)` on the whole archive, so the extracted
entries are all entries of the archive. -/
def extract_archive (archive_path : String) (entries : List String) :
    Except ExtractError (List String × List String) :=
  if pyEndsWith archive_path ".tar.gz" then
    .ok (entries.filter suspiciousEntry, entries)
  else if pyEndsWith archive_path ".zip" then
    .ok (entries.filter suspiciousEntry, entries)
  else
    .error .unsupportedFormat

/-! ## Per-file indexing (`RepositoryIndexer._process_file`,
`indexing.py:28-95`) -/

/-- Metadata attached to an embedded chunk (`indexing.py:75-83`): the
chunk metadata `{file_path, start_line}` updated with repository name,
file id, file hash, extension-derived file type and indexing timestamp. -/
structure FileChunkMeta where
  file_path : String
  start_line : Nat
  repo_name : String
  file_id : String
  file_hash : String
  file_type : String
  indexed_at : String
  deriving DecidableEq, Repr

/-- One batch returned by `_process_file` (`indexing.py:87-91`) and handed
to `VectorStore.add_documents` by `_process_repository`
(`indexing.py:158-165`). -/
structure Batch where
  embeddings : List (List Int)
  documents : List String
  metadatas : List FileChunkMeta
  deriving DecidableEq, Repr

/-- The mutable state of a `RepositoryIndexer`: the `indexed_files` set
(`indexing.py:26`).  Modelled as a duplicate-free list; the code adds an
identity only after checking it is absent, so `::` is exact. -/
structure IndexState where
  indexedFiles : List String
  deriving DecidableEq, Repr

/-- External collaborators of `_process_file`, as oracle outcomes:
`open(file_path, 'rb').read()` (`.error` = an `OSError`), the two
`bytes.decode` calls (`.error` = `UnicodeDecodeError`),
`hashlib.sha256(...).hexdigest()`, the `SentenceTransformer.encode` call
per chunk (`.error` = an embedding exception), the
`datetime.now().isoformat()` timestamp, and the chunker externals.
Bytes are modelled as `List Nat`, embedding vectors as `List Int`. -/
structure FileEnv where
  read : Except String (List Nat)
  utf8Decode : List Nat → Except String String
  latin1Decode : List Nat → Except String String
  sha256hex : List Nat → String
  embed : String → Except String (List Int)
  now : String
  chunkExt : ChunkerExternals

/-- The decode cascade of `indexing.py:35-44`: try UTF-8, fall back to
Latin-1, give up (`return []` after a warning) when both fail. -/
def decodedText (env : FileEnv) (bytes : List Nat) : Option String :=
  match env.utf8Decode bytes with
  | .ok t => some t
  | .error _ =>
    match env.latin1Decode bytes with
    | .ok t => some t
    | .error _ => none

/-- The extension allow-list of `indexing.py:47-50`. -/
def allowedFileExt (file_path : String) : Bool :=
  [".py", ".java", ".cpp", ".js", ".ts", ".tsx", ".jsx", ".css", ".html",
   ".yaml", ".json", ".xml", ".log", ".txt", ".config", ".env", ".md"].any
    (fun s => pyEndsWith file_path s)

/-- `Path(file_path).suffix`: the final extension (with dot) of the last
path component, empty when the component has no dot after its first
character. -/
def pathSuffix (file_path : String) : String :=
  let name := (pySplitChar file_path '/').getLastD ""
  let core := if pyStartsWith name "." then ⟨name.data.drop 1⟩ else name
  let parts := pySplitChar core '.'
  if parts.length ≤ 1 then "" else "." ++ parts.getLastD ""

/-- Python `s[1:]` — used as `Path(file_path).suffix[1:]` at
`indexing.py:80`. -/
def pySliceFrom1 (s : String) : String := ⟨s.data.drop 1⟩

/-- `file_id = f"{repo_name}:{file_path}:{file_hash}"` (`indexing.py:63`). -/
def mkFileId (repo_name file_path file_hash : String) : String :=
  repo_name ++ ":" ++ file_path ++ ":" ++ file_hash

/-- The embedding loop of `indexing.py:69-71`, sequential over chunk
contents; returns the number of `encode` calls made and either the list of
embeddings or the first failure. -/
def embedChunks (embed : String → Except String (List Int)) :
    List String → Nat × Except String (List (List Int))
  | [] => (0, .ok [])
  | c :: rest =>
    match embed c with
    | .error e => (1, .error e)
    | .ok v =>
      match embedChunks embed rest with
      | (n, .error e) => (n + 1, .error e)
      | (n, .ok vs) => (n + 1, .ok (v :: vs))

/-- The result of `_process_file`: the returned batch list, the
`RepositoryIndexer` state after the call, and the number of calls made to
the Embedding Provider during the call. -/
structure ProcessFileResult where
  batches : List Batch
  state : IndexState
  embedCalls : Nat
  deriving DecidableEq, Repr

/-- `_process_file(file_path, repo_name)` (`indexing.py:28-95`):
read the raw bytes, decode (UTF-8 then Latin-1, skip on double failure),
filter by the extension allow-list, chunk with the instance chunker
(`CodeChunker()` defaults: `chunk_size=1000`, `chunk_overlap=200`),
compute the file hash and id, return `[]` when the id is already in
`indexed_files`, otherwise embed every chunk, add the id to
`indexed_files`, and return one batch.  Any exception (read or embedding)
is caught at `indexing.py:93-95` and turned into `return []`; the state is
then unchanged. -/
def process_file (env : FileEnv) (file_path repo_name : String)
    (st : IndexState) : ProcessFileResult :=
  match env.read with
  | .error _ => ⟨[], st, 0⟩
  | .ok content =>
    match decodedText env content with
    | none => ⟨[], st, 0⟩
    | some text_content =>
      if ¬ allowedFileExt file_path then ⟨[], st, 0⟩
      else
        let chunks := chunk_code env.chunkExt 1000 200 text_content file_path
        let file_hash := env.sha256hex content
        let file_id := mkFileId repo_name file_path file_hash
        if file_id ∈ st.indexedFiles then ⟨[], st, 0⟩
        else
          match embedChunks env.embed (chunks.map (fun c => c.content)) with
          | (n, .error _) => ⟨[], st, n⟩
          | (n, .ok embs) =>
            ⟨[⟨embs, chunks.map (fun c => c.content),
               chunks.map (fun c =>
                 ⟨c.file_path, c.start_line, repo_name, file_id, file_hash,
                  pySliceFrom1 (pathSuffix file_path), env.now⟩)⟩],
             ⟨file_id :: st.indexedFiles⟩, n⟩

/-- The write loop of `_process_repository` (`indexing.py:158-165`): one
`VectorStore.add_documents` call per batch of a nonempty result. -/
def vectorStoreWrites (batches : List Batch) : Nat := batches.length

/-! ## Multi-source orchestration (`RepositoryIndexer.index_repositories`,
`indexing.py:218-242`) -/

inductive RepoSource where
  | gerrit
  | github
  deriving DecidableEq, Repr

/-- The indexing tasks constructed by `index_repositories`
(`indexing.py:226-234`): one `process_gerrit_repo(repo)` coroutine per
Gerrit repository (admission-gated by `asyncio.Semaphore(5)`) and one
`_process_github_repository(repo_url)` coroutine per configured GitHub
repository. -/
def createdIndexingTasks (gerrit_repos github_repos : List String) :
    List (RepoSource × String) :=
  gerrit_repos.map (fun r => (RepoSource.gerrit, r)) ++
    github_repos.map (fun r => (RepoSource.github, r))

/-- The tasks actually awaited by `index_repositories`: the function runs
`await asyncio.gather(*github_tasks)` (`indexing.py:237`) and returns; the
`await asyncio.gather(*gerrit_tasks)` line is commented out
(`indexing.py:238`), so the Gerrit coroutines are created but never
awaited and no Gerrit repository is processed. -/
def awaitedIndexingTasks (_gerrit_repos github_repos : List String) :
    List (RepoSource × String) :=
  github_repos.map (fun r => (RepoSource.github, r))

/-! ## Indexing scheduler (`IndexingManager._run_indexing`,
`indexing.py:259-274`) -/

/-- Outcome of one full indexing pass
(`await self.indexer.index_repositories()`): normal return, or an
`Exception` caught by the `except Exception` handler at
`indexing.py:271`. -/
inductive PassResult where
  | ok
  | err
  deriving DecidableEq, Repr

/-- The scheduler state visible across loop iterations:
`self._last_indexed` (`indexing.py:248`, set at `indexing.py:265`).
Timestamps are abstract `Nat`s. -/
structure SchedState where
  lastIndexed : Option Nat
  deriving DecidableEq, Repr

/-- One iteration of the `while True` loop of `_run_indexing`
(`indexing.py:261-274`), as a function from the current time, state and
pass outcome to `some (next state, sleep seconds)`; `none` would model the
loop terminating or an exception escaping it, and no branch of the code
produces it.  On success `_last_indexed` is set and the loop sleeps
`6 * 60 * 60` seconds; on an exception it sleeps `15 * 60` seconds with
the state unchanged. -/
def run_indexing_step (now : Nat) (st : SchedState) (r : PassResult) :
    Option (SchedState × Nat) :=
  match r with
  | .ok => some (⟨some now⟩, 6 * 60 * 60)
  | .err => some (st, 15 * 60)

/-- The state after `n` iterations of the `_run_indexing` loop, for given
streams of pass outcomes and clock readings. -/
def run_indexing_trace (outcome : Nat → PassResult) (time : Nat → Nat) :
    Nat → SchedState
  | 0 => ⟨none⟩
  | n + 1 =>
    match run_indexing_step (time n) (run_indexing_trace outcome time n)
        (outcome n) with
    | some (st, _) => st
    | none => run_indexing_trace outcome time n

/-! ## Retrieval pipeline (`RAGPipeline`, `app/core/rag.py`) -/

/-- Metadata of a stored chunk as returned by the Vector Store query and
consumed at `rag.py:95-102`. -/
structure StoredMeta where
  file_path : String
  repo_name : String
  file_type : String
  deriving DecidableEq, Repr

/-- The inner parallel arrays `results['documents'][0]` and
`results['metadatas'][0]` of one Vector Store query result
(`rag.py:47-51`); the store contract makes them equal-length. -/
structure StoreReply where
  documents : List String
  metadatas : List StoredMeta
  deriving DecidableEq, Repr

/-- A retrieved chunk (`rag.py:48-51`). -/
structure RetrievedChunk where
  content : String
  metadata : StoredMeta
  deriving DecidableEq, Repr

/-- The chunk list built by `_retrieve_relevant_chunks` from one store
reply: `{'content': documents[0][i], 'metadata': metadatas[0][i]}` for
`i in range(len(documents[0]))`. -/
def replyChunks (r : StoreReply) : List RetrievedChunk :=
  (r.documents.zip r.metadatas).map (fun p => ⟨p.1, p.2⟩)

/-- The Generation Service reply (`llm.py:47-50`): `response['response']`
and `response['model']`, with the optional token counts read by
`response.get` at `rag.py:110-111`. -/
structure GenResult where
  response : String
  model : String
  prompt_tokens : Option Nat
  completion_tokens : Option Nat
  deriving DecidableEq, Repr

/-- One source-attribution entry of the `process_query` result
(`rag.py:95-102`). -/
structure SourceInfo where
  file_path : String
  repo_name : String
  file_type : String
  deriving DecidableEq, Repr

/-- The dictionary returned by `process_query` (`rag.py:104-113`). -/
structure QueryOutput where
  answer : String
  sources : List SourceInfo
  model : String
  chunks_retrieved : Nat
  prompt_tokens : Option Nat
  completion_tokens : Option Nat
  deriving DecidableEq, Repr

/-- Collaborator oracles for one `process_query` run: the
`SentenceTransformer.encode` call on the query (`_create_embedding`), the
Vector Store query outcome as a function of the 0-based call number (so
that retries observe fresh outcomes), and the Generation Service call as a
function of the context it receives. -/
structure QueryEnv where
  embed : Except String (List Int)
  store : Nat → Except String StoreReply
  generate : String → Except String GenResult

/-- Observable collaborator call counts of one `process_query` run, plus
the waits (in seconds) inserted between store-query attempts by the retry
policy. -/
structure CallCounts where
  embedCalls : Nat
  storeCalls : Nat
  genCalls : Nat
  storeWaits : List Nat
  deriving DecidableEq, Repr

/-- `tenacity.wait_exponential(multiplier=1, min=4, max=10)` evaluated at
attempt number `n`: `multiplier * 2 ** n` clamped into `[min, max]`. -/
def tenacityWaitExp (n : Nat) : Nat := max 4 (min (1 * 2 ^ n) 10)

/-- The `tenacity` retry driver for
`@retry(stop=stop_after_attempt(3), wait=wait_exponential(...))`
(`rag.py:37`): call the wrapped function; on success return its value; on
an exception, stop after the configured number of attempts or wait
`tenacityWaitExp attempt` seconds and retry.  Returns the number of calls
made, the waits inserted, and the final outcome.  `attempt` is the 1-based
number of the attempt being made. -/
def retryCalls (f : Nat → Except String StoreReply) :
    Nat → Nat → Nat × List Nat × Except String StoreReply
  | 0, _ => (0, [], .error "")
  | fuel + 1, attempt =>
    match f (attempt - 1) with
    | .ok a => (1, [], .ok a)
    | .error e =>
      if fuel = 0 then (1, [], .error e)
      else
        match retryCalls f fuel (attempt + 1) with
        | (n, ws, r) => (n + 1, tenacityWaitExp attempt :: ws, r)

/-- `_retrieve_relevant_chunks` under its retry decorator (`rag.py:37-55`):
up to 3 attempts against the Vector Store, each successful reply converted
to the chunk list. -/
def retrieve_relevant_chunks (store : Nat → Except String StoreReply) :
    Nat × List Nat × Except String (List RetrievedChunk) :=
  match retryCalls store 3 1 with
  | (n, ws, .error e) => (n, ws, .error e)
  | (n, ws, .ok r) => (n, ws, .ok (replyChunks r))

/-- `_prepare_context` (`rag.py:26-35`): per chunk a
`File: ...\nRepository: ...\nContent:\n...\n` block, blocks joined by
`\n---\n`. -/
def prepare_context (chunks : List RetrievedChunk) : String :=
  String.intercalate "\n---\n"
    (chunks.map (fun c =>
      "File: " ++ c.metadata.file_path ++ "\n" ++
      "Repository: " ++ c.metadata.repo_name ++ "\n" ++
      "Content:\n" ++ c.content ++ "\n"))

/-- `process_query` (`rag.py:57-117`): embed the query, retrieve chunks
with retry, assemble the context, call the Generation Service, and build
the result dictionary.  Every failure is re-raised (`.error`); only the
store query is retried.  Returns the outcome together with the observed
collaborator call counts. -/
def process_query (env : QueryEnv) :
    Except String QueryOutput × CallCounts :=
  match env.embed with
  | .error e => (.error e, ⟨1, 0, 0, []⟩)
  | .ok _ =>
    match retrieve_relevant_chunks env.store with
    | (n, ws, .error e) => (.error e, ⟨1, n, 0, ws⟩)
    | (n, ws, .ok relevant_chunks) =>
      let context := prepare_context relevant_chunks
      match env.generate context with
      | .error e => (.error e, ⟨1, n, 1, ws⟩)
      | .ok g =>
        (.ok ⟨g.response,
              relevant_chunks.map (fun c =>
                ⟨c.metadata.file_path, c.metadata.repo_name,
                 c.metadata.file_type⟩),
              g.model, relevant_chunks.length,
              g.prompt_tokens, g.completion_tokens⟩,
         ⟨1, n, 1, ws⟩)

/-! ## Concrete instances used by witnesses and counterexamples -/

/-- Chunker externals for non-Python, non-Markdown, non-keyword files: the
external collaborators are never consulted on those paths, so any values
serve.  (`id` for the Markdown renderer, a parse failure for `ast`, the
identity split for the keyword splitter.) -/
def lineExternals : ChunkerExternals :=
  ⟨id, fun _ => none, fun c => [c]⟩

/-- The observed behavior of the `ast` collaborator on the scenario input
`"def foo():\n    pass\n"`: `ast.parse` succeeds and `ast.walk` finds
exactly one `FunctionDef` node, named `foo` (no `ClassDef`).  The other
externals are never consulted for a `.py` file. -/
def astOracleFoo : ChunkerExternals :=
  ⟨id, fun _ => some ["foo"], fun c => [c]⟩

/-- A `process_query` environment whose Vector Store returns zero
documents and whose Generation Service answers `"GENERATED"`. -/
def envZeroHits : QueryEnv :=
  ⟨.ok [0], fun _ => .ok ⟨[], []⟩,
   fun _ => .ok ⟨"GENERATED", "m", none, none⟩⟩

/-- A `process_query` environment whose Vector Store fails on the first
two calls and succeeds on the third with one document. -/
def envFlaky : QueryEnv :=
  ⟨.ok [0],
   fun n => if n = 0 then .error "down" else if n = 1 then .error "down2"
     else .ok ⟨["doc"], [⟨"f.py", "repoA", "py"⟩]⟩,
   fun _ => .ok ⟨"ans", "m", none, none⟩⟩

/-- A `_process_file` environment whose `open(...).read()` raises. -/
def envReadFail : FileEnv :=
  ⟨.error "OSError", fun _ => .error "decode", fun _ => .error "decode",
   fun _ => "HASH", fun _ => .error "embed", "T0", lineExternals⟩

/-- A `_process_file` environment that reads and decodes one byte of
content successfully and embeds successfully. -/
def envReadOk : FileEnv :=
  ⟨.ok [97], fun _ => .ok "a", fun _ => .ok "a",
   fun _ => "HASH", fun _ => .ok [1], "T0", lineExternals⟩

/-! ## Helper lemmas -/

theorem pyLen_append (a b : String) : pyLen (a ++ b) = pyLen a + pyLen b := by
  simp [pyLen]

theorem pyLen_sliceLast_le (s : String) (n : Nat) :
    pyLen (pySliceLast s n) ≤ n := by
  unfold pySliceLast
  split
  · simp [pyLen]
  · simp only [pyLen, List.length_drop]
    omega

theorem str_eq_empty_iff (s : String) : s = "" ↔ s.data = [] := by
  cases s
  simp [String.ext_iff]

theorem append_ne_empty_left (a b : String) (ha : a ≠ "") : a ++ b ≠ "" := by
  intro h
  rw [str_eq_empty_iff] at h
  simp at h
  exact ha ((str_eq_empty_iff a).2 h.1)

theorem str_append_empty (a : String) : a ++ "" = a := by simp

theorem str_append_assoc (a b c : String) : a ++ b ++ c = a ++ (b ++ c) :=
  String.append_assoc a b c

theorem chunkAccum_extends (cs co : Nat) (fp : String) :
    ∀ (splits : List String) (cur : String) (acc : List Chunk),
      ∃ l, chunkAccum cs co fp splits cur acc = acc ++ l := by
  intro splits
  induction splits with
  | nil =>
    intro cur acc
    unfold chunkAccum
    split
    · exact ⟨[], by simp⟩
    · exact ⟨[⟨cur, fp, acc.length * cs⟩], rfl⟩
  | cons s rest ih =>
    intro cur acc
    unfold chunkAccum
    split
    · obtain ⟨l, hl⟩ := ih (pySliceLast s co ++ s)
        (acc ++ [⟨cur, fp, acc.length * cs⟩])
      exact ⟨⟨cur, fp, acc.length * cs⟩ :: l, by simp [hl]⟩
    · exact ih (cur ++ s) acc

theorem chunkAccum_first_emitted_prefix (cs co : Nat) (fp : String) :
    ∀ (splits : List String) (cur : String) (acc : List Chunk),
      cur ≠ "" →
      ∃ c l t, chunkAccum cs co fp splits cur acc = acc ++ c :: l ∧
        c.content = cur ++ t := by
  intro splits
  induction splits with
  | nil =>
    intro cur acc hcur
    unfold chunkAccum
    rw [if_neg (by simpa [String.isEmpty_iff] using hcur)]
    exact ⟨⟨cur, fp, acc.length * cs⟩, [], "", rfl, (str_append_empty cur).symm⟩
  | cons s rest ih =>
    intro cur acc hcur
    unfold chunkAccum
    split
    · obtain ⟨l, hl⟩ := chunkAccum_extends cs co fp rest
        (pySliceLast s co ++ s) (acc ++ [⟨cur, fp, acc.length * cs⟩])
      exact ⟨⟨cur, fp, acc.length * cs⟩, l, "", by simp [hl],
        (str_append_empty cur).symm⟩
    · obtain ⟨c, l, t, hc, hpre⟩ := ih (cur ++ s) acc
        (append_ne_empty_left cur s hcur)
      exact ⟨c, l, s ++ t, hc, by rw [hpre, str_append_assoc]⟩

theorem chunkAccum_bounded (cs co : Nat) (fp : String) (hco : co ≤ cs) :
    ∀ (splits : List String) (cur : String) (acc : List Chunk),
      pyLen cur ≤ cs →
      (∀ s ∈ splits, pyLen s ≤ cs - co) →
      (∀ c ∈ acc, pyLen c.content ≤ cs) →
      ∀ c ∈ chunkAccum cs co fp splits cur acc, pyLen c.content ≤ cs := by
  intro splits
  induction splits with
  | nil =>
    intro cur acc hcur _ hacc c hc
    unfold chunkAccum at hc
    split at hc
    · exact hacc c hc
    · rcases List.mem_append.1 hc with h | h
      · exact hacc c h
      · simp at h
        simp [h, hcur]
  | cons s rest ih =>
    intro cur acc hcur hsplits hacc c hc
    unfold chunkAccum at hc
    split at hc
    · refine ih (pySliceLast s co ++ s) _ ?_ ?_ ?_ c hc
      · have h1 := pyLen_sliceLast_le s co
        have h2 := hsplits s (by simp)
        rw [pyLen_append]
        omega
      · intro u hu
        exact hsplits u (by simp [hu])
      · intro d hd
        rcases List.mem_append.1 hd with h | h
        · exact hacc d h
        · simp at h
          simp [h, hcur]
    · rename_i hle
      refine ih (cur ++ s) acc ?_ ?_ hacc c hc
      · rw [pyLen_append]
        omega
      · intro u hu
        exact hsplits u (by simp [hu])

theorem embedChunks_ok_length (embed : String → Except String (List Int)) :
    ∀ (l : List String) (n : Nat) (vs : List (List Int)),
      embedChunks embed l = (n, .ok vs) → vs.length = l.length := by
  intro l
  induction l with
  | nil =>
    intro n vs h
    simp [embedChunks] at h
    simp [h.2.symm]
  | cons c rest ih =>
    intro n vs h
    unfold embedChunks at h
    cases hce : embed c with
    | error e => simp [hce] at h
    | ok v =>
      rw [hce] at h
      cases hr : embedChunks embed rest with
      | mk m r =>
        cases r with
        | error e => simp [hr] at h
        | ok ws =>
          rw [hr] at h
          simp at h
          rw [← h.2]
          simp [ih m ws hr]

theorem process_file_read_error (env : FileEnv) (fp repo : String)
    (st : IndexState) (e : String) (h : env.read = .error e) :
    process_file env fp repo st = ⟨[], st, 0⟩ := by
  simp [process_file, h]

theorem process_file_undecodable (env : FileEnv) (fp repo : String)
    (st : IndexState) (b : List Nat) (hr : env.read = .ok b)
    (hd : decodedText env b = none) :
    process_file env fp repo st = ⟨[], st, 0⟩ := by
  simp [process_file, hr, hd]

theorem process_file_not_allowed (env : FileEnv) (fp repo : String)
    (st : IndexState) (b : List Nat) (t : String) (hr : env.read = .ok b)
    (hd : decodedText env b = some t) (ha : allowedFileExt fp = false) :
    process_file env fp repo st = ⟨[], st, 0⟩ := by
  simp [process_file, hr, hd, ha]

theorem process_file_seen (env : FileEnv) (fp repo : String)
    (st : IndexState) (b : List Nat) (t : String) (hr : env.read = .ok b)
    (hd : decodedText env b = some t)
    (hm : mkFileId repo fp (env.sha256hex b) ∈ st.indexedFiles) :
    process_file env fp repo st = ⟨[], st, 0⟩ := by
  by_cases ha : allowedFileExt fp
  · simp [process_file, hr, hd, ha, hm]
  · simp [process_file, hr, hd, ha]

theorem process_file_embed_error (env : FileEnv) (fp repo : String)
    (st : IndexState) (b : List Nat) (t : String) (n : Nat) (e : String)
    (hr : env.read = .ok b) (hd : decodedText env b = some t)
    (ha : allowedFileExt fp = true)
    (hm : mkFileId repo fp (env.sha256hex b) ∉ st.indexedFiles)
    (he : embedChunks env.embed
      ((chunk_code env.chunkExt 1000 200 t fp).map (fun c => c.content)) =
        (n, .error e)) :
    process_file env fp repo st = ⟨[], st, n⟩ := by
  simp [process_file, hr, hd, ha, hm, he]

theorem process_file_success (env : FileEnv) (fp repo : String)
    (st : IndexState) (b : List Nat) (t : String) (n : Nat)
    (embs : List (List Int))
    (hr : env.read = .ok b) (hd : decodedText env b = some t)
    (ha : allowedFileExt fp = true)
    (hm : mkFileId repo fp (env.sha256hex b) ∉ st.indexedFiles)
    (he : embedChunks env.embed
      ((chunk_code env.chunkExt 1000 200 t fp).map (fun c => c.content)) =
        (n, .ok embs)) :
    process_file env fp repo st =
      ⟨[⟨embs, (chunk_code env.chunkExt 1000 200 t fp).map (fun c => c.content),
         (chunk_code env.chunkExt 1000 200 t fp).map (fun c =>
           ⟨c.file_path, c.start_line, repo,
            mkFileId repo fp (env.sha256hex b), env.sha256hex b,
            pySliceFrom1 (pathSuffix fp), env.now⟩)⟩],
       ⟨mkFileId repo fp (env.sha256hex b) :: st.indexedFiles⟩, n⟩ := by
  simp [process_file, hr, hd, ha, hm, he]

theorem tenacityWaitExp_bounds (n : Nat) :
    4 ≤ tenacityWaitExp n ∧ tenacityWaitExp n ≤ 10 := by
  unfold tenacityWaitExp
  constructor
  · exact Nat.le_max_left ..
  · exact Nat.max_le.2 ⟨by norm_num, Nat.min_le_right ..⟩

theorem retryCalls_calls_le (f : Nat → Except String StoreReply) :
    ∀ (fuel attempt : Nat),
      (retryCalls f fuel attempt).1 ≤ fuel := by
  intro fuel
  induction fuel with
  | zero => intro attempt; simp [retryCalls]
  | succ k ih =>
    intro attempt
    unfold retryCalls
    cases f (attempt - 1) with
    | ok a => simp
    | error e =>
      simp only []
      split
      · simp
      · have := ih (attempt + 1)
        cases h : retryCalls f k (attempt + 1) with
        | mk n wr =>
          simp [h] at this ⊢
          omega

theorem retryCalls_waits_bounded (f : Nat → Except String StoreReply) :
    ∀ (fuel attempt : Nat) (w : Nat),
      w ∈ (retryCalls f fuel attempt).2.1 → 4 ≤ w ∧ w ≤ 10 := by
  intro fuel
  induction fuel with
  | zero => intro attempt w hw; simp [retryCalls] at hw
  | succ k ih =>
    intro attempt w hw
    unfold retryCalls at hw
    cases hf : f (attempt - 1) with
    | ok a => simp [hf] at hw
    | error e =>
      simp only [hf] at hw
      split at hw
      · simp at hw
      · simp at hw
        rcases hw with hw | hw
        · rw [hw]; exact tenacityWaitExp_bounds attempt
        · exact ih (attempt + 1) w hw

theorem retryCalls_two_failures (f : Nat → Except String StoreReply)
    (e0 e1 : String) (r : StoreReply)
    (h0 : f 0 = .error e0) (h1 : f 1 = .error e1) (h2 : f 2 = .ok r) :
    retryCalls f 3 1 = (3, [tenacityWaitExp 1, tenacityWaitExp 2], .ok r) := by
  unfold retryCalls
  simp only [h0]
  unfold retryCalls
  simp only [h1]
  unfold retryCalls
  simp only [h2]
  simp

theorem retryCalls_first_ok (f : Nat → Except String StoreReply)
    (r : StoreReply) (h0 : f 0 = .ok r) :
    retryCalls f 3 1 = (1, [], .ok r) := by
  unfold retryCalls
  simp [h0]

theorem retrieve_chunks_proj (s : Nat → Except String StoreReply) :
    (retrieve_relevant_chunks s).1 = (retryCalls s 3 1).1 ∧
    (retrieve_relevant_chunks s).2.1 = (retryCalls s 3 1).2.1 := by
  unfold retrieve_relevant_chunks
  rcases retryCalls s 3 1 with ⟨n, ws, r⟩
  cases r <;> simp

theorem process_query_call_bounds (env : QueryEnv) :
    (process_query env).2.embedCalls = 1 ∧
    (process_query env).2.genCalls ≤ 1 ∧
    (process_query env).2.storeCalls ≤ 3 ∧
    ∀ w ∈ (process_query env).2.storeWaits, 4 ≤ w ∧ w ≤ 10 := by
  have hproj := retrieve_chunks_proj env.store
  have hn := retryCalls_calls_le env.store 3 1
  have hwb := retryCalls_waits_bounded env.store 3 1
  unfold process_query
  cases he : env.embed with
  | error e => simp
  | ok emb =>
    rcases hr : retrieve_relevant_chunks env.store with ⟨n, ws, r⟩
    rw [hr] at hproj
    simp only [] at hproj
    have hn3 : n ≤ 3 := hproj.1 ▸ hn
    have hws : ∀ w ∈ ws, 4 ≤ w ∧ w ≤ 10 := fun w hw => hwb w (hproj.2 ▸ hw)
    cases r with
    | error e => simpa using ⟨hn3, hws⟩
    | ok chunks =>
      rcases hg : env.generate (prepare_context chunks) with e | g <;>
        simp only [hg] <;> simpa using ⟨hn3, hws⟩

/-! ## Claim theorems -/

/-- A string append with a nonempty right operand is nonempty. -/
theorem append_ne_empty_right (a b : String) (hb : b ≠ "") :
    a ++ b ≠ "" := by
  intro h
  rw [str_eq_empty_iff] at h
  simp at h
  exact hb ((str_eq_empty_iff b).2 h.2)

/-- Claim C1 (code bug): the spec requires extraction to skip any archive
entry whose path is absolute or contains a parent-directory traversal
segment, and the code itself logs `"Suspicious path ..., skipping"` for
such entries — but the `continue` only advances the warning loop, after
which `extractall` is invoked on the whole archive.  Evaluating the code
at the failing input: the zip entry `"../../etc/passwd"` is flagged as
suspicious, yet it is among the extracted entries for both archive
formats, so the entry is not skipped. -/
theorem extract_archive_extracts_traversal_entry :
    suspiciousEntry "../../etc/passwd" = true ∧
    extract_archive "repo.zip" ["../../etc/passwd"] =
      .ok (["../../etc/passwd"], ["../../etc/passwd"]) ∧
    extract_archive "repo.tar.gz" ["../../etc/passwd"] =
      .ok (["../../etc/passwd"], ["../../etc/passwd"]) :=
  ⟨by decide, rfl, rfl⟩

/-- Claim C2 (code bug): chunking `"def foo():\n    pass\n"` as Python with
`chunk_size = 1000` is required to produce exactly one chunk equal to the
whole content.  Evaluating the code at the failing input (with the `ast`
oracle fixed to its observed behavior on this input, one `FunctionDef`
named `foo`): exactly one chunk is produced, but its content is the marker
string `"\n\n# foo starts here\n"` — `process_python` returns only header
markers and drops the file's code, contradicting its own docstring
("Split Python code into logical blocks"). -/
theorem chunk_code_python_marker_only :
    chunk_code astOracleFoo 1000 200 "def foo():\n    pass\n" "foo.py" =
      [⟨"\n\n# foo starts here\n", "foo.py", 0⟩] ∧
    "\n\n# foo starts here\n" ≠ "def foo():\n    pass\n" := by
  exact ⟨by decide, by decide⟩

/-- Claim C3 counterexample: `process_query` against a store returning
zero documents still invokes the Generation Service (one generation call)
and returns the generated text, not the sentinel
`"No relevant code found for your query."` — that sentinel exists only in
the HTTP endpoint `query_code`, which does not use `RAGPipeline`. -/
theorem process_query_zero_chunks_calls_generation :
    (process_query envZeroHits).1 =
      .ok ⟨"GENERATED", [], "m", 0, none, none⟩ ∧
    (process_query envZeroHits).2.genCalls = 1 ∧
    "GENERATED" ≠ "No relevant code found for your query." :=
  ⟨rfl, rfl, by decide⟩

/-- Claim C3 (amended): when the Vector Store returns zero chunks,
`process_query` returns empty sources and `chunks_retrieved = 0`, but it
does invoke the Generation Service exactly once, with an empty context,
and its answer is whatever the Generation Service returns. -/
theorem process_query_zero_chunks_behavior (env : QueryEnv)
    (emb : List Int) (g : GenResult)
    (he : env.embed = .ok emb)
    (hs : env.store 0 = .ok ⟨[], []⟩)
    (hg : env.generate "" = .ok g) :
    (process_query env).1 =
      .ok ⟨g.response, [], g.model, 0, g.prompt_tokens,
           g.completion_tokens⟩ ∧
    (process_query env).2.genCalls = 1 ∧
    (process_query env).2.storeCalls = 1 := by
  have hret := retryCalls_first_ok env.store ⟨[], []⟩ hs
  unfold process_query
  rw [he]
  unfold retrieve_relevant_chunks
  rw [hret]
  simp [replyChunks, prepare_context, String.intercalate, hg]

/-- Witness for the amended claim C3 at a concrete environment. -/
theorem process_query_zero_chunks_behavior_witness :
    (process_query envZeroHits).1 =
      .ok ⟨"GENERATED", [], "m", 0, none, none⟩ ∧
    (process_query envZeroHits).2.genCalls = 1 ∧
    (process_query envZeroHits).2.storeCalls = 1 :=
  process_query_zero_chunks_behavior envZeroHits [0]
    ⟨"GENERATED", "m", none, none⟩ rfl rfl rfl

/-- Claim C4 counterexample: a Gerrit repository `"repoA"` has its
indexing task created by `index_repositories`, but the task is not among
the awaited ones (the `gather` over Gerrit tasks is commented out), so the
claim that every repository of both kinds is processed is false. -/
theorem gerrit_repo_created_not_awaited :
    (RepoSource.gerrit, "repoA") ∈ createdIndexingTasks ["repoA"] ["urlB"] ∧
    (RepoSource.gerrit, "repoA") ∉ awaitedIndexingTasks ["repoA"] ["urlB"] := by
  decide

/-- Claim C4 (amended): `index_repositories` creates indexing tasks for
both source kinds, but awaits only the GitHub tasks; every Gerrit task is
created and never awaited (so no Gerrit repository is processed), while
every configured GitHub repository's task is awaited. -/
theorem index_repositories_awaits_only_github (g h : List String) :
    (∀ r ∈ g, (RepoSource.gerrit, r) ∈ createdIndexingTasks g h ∧
      (RepoSource.gerrit, r) ∉ awaitedIndexingTasks g h) ∧
    ∀ u ∈ h, (RepoSource.github, u) ∈ awaitedIndexingTasks g h := by
  refine ⟨fun r hr => ⟨?_, ?_⟩, fun u hu => ?_⟩
  · simp [createdIndexingTasks]
    exact hr
  · simp [awaitedIndexingTasks]
  · simp [awaitedIndexingTasks]
    exact hu

/-- Witness for the amended claim C4 at a concrete repository list. -/
theorem index_repositories_awaits_only_github_witness :
    ((RepoSource.gerrit, "repoA") ∈ createdIndexingTasks ["repoA"] ["urlB"] ∧
     (RepoSource.gerrit, "repoA") ∉ awaitedIndexingTasks ["repoA"] ["urlB"]) ∧
    (RepoSource.github, "urlB") ∈ awaitedIndexingTasks ["repoA"] ["urlB"] :=
  ⟨(index_repositories_awaits_only_github ["repoA"] ["urlB"]).1 "repoA"
      (by decide),
   (index_repositories_awaits_only_github ["repoA"] ["urlB"]).2 "urlB"
      (by decide)⟩

/-- Claim C5 counterexample: with `chunk_size = 5`, `chunk_overlap = 2`
and content `"abc\ndefgh"`, the chunk `"abc"` is closed when `"defgh"`
overflows; the claim predicts the next chunk to be seeded with the last 2
characters of the closed chunk (`"bc"`, giving `"bcdefgh"`), but the code
produces `"ghdefgh"` — the seed is taken from the overflowing split unit,
not from the closed chunk. -/
theorem chunk_overlap_seeded_from_split_counterexample :
    ((chunk_code lineExternals 5 2 "abc\ndefgh" "a.txt").map
      (fun c => c.content)) = ["abc", "ghdefgh"] ∧
    pySliceLast "abc" 2 = "bc" ∧
    "ghdefgh" ≠ "bc" ++ "defgh" := by
  decide

/-- Claim C5 (amended): when a chunk is closed because split unit `s`
overflows the budget, the accumulation continues with the new current
chunk `s[-chunk_overlap:] ++ s` — seeded with the trailing
`chunk_overlap` characters of the overflowing split unit, not of the
closed chunk — and (for nonempty `s`) the next chunk appended to the
output begins with exactly that seeded text. -/
theorem chunkAccum_seeds_next_chunk_from_split (cs co : Nat)
    (fp s : String) (rest : List String) (cur : String) (acc : List Chunk)
    (hover : pyLen cur + pyLen s > cs) (hs : s ≠ "") :
    chunkAccum cs co fp (s :: rest) cur acc =
      chunkAccum cs co fp rest (pySliceLast s co ++ s)
        (acc ++ [⟨cur, fp, acc.length * cs⟩]) ∧
    ∃ c l t, chunkAccum cs co fp (s :: rest) cur acc =
      (acc ++ [⟨cur, fp, acc.length * cs⟩]) ++ c :: l ∧
      c.content = (pySliceLast s co ++ s) ++ t := by
  have hstep : chunkAccum cs co fp (s :: rest) cur acc =
      if pyLen cur + pyLen s > cs then
        chunkAccum cs co fp rest (pySliceLast s co ++ s)
          (acc ++ [⟨cur, fp, acc.length * cs⟩])
      else chunkAccum cs co fp rest (cur ++ s) acc := rfl
  have heq : chunkAccum cs co fp (s :: rest) cur acc =
      chunkAccum cs co fp rest (pySliceLast s co ++ s)
        (acc ++ [⟨cur, fp, acc.length * cs⟩]) := by
    rw [hstep, if_pos hover]
  refine ⟨heq, ?_⟩
  obtain ⟨c, l, t, hc, hpre⟩ := chunkAccum_first_emitted_prefix cs co fp
    rest (pySliceLast s co ++ s) (acc ++ [⟨cur, fp, acc.length * cs⟩])
    (append_ne_empty_right _ s hs)
  exact ⟨c, l, t, heq.trans hc, hpre⟩

/-- Witness for the amended claim C5 at the counterexample's input. -/
theorem chunkAccum_seeds_next_chunk_from_split_witness :
    chunkAccum 5 2 "a.txt" ["defgh"] "abc" [] =
      chunkAccum 5 2 "a.txt" [] (pySliceLast "defgh" 2 ++ "defgh")
        ([] ++ [⟨"abc", "a.txt", 0⟩]) ∧
    ∃ c l t, chunkAccum 5 2 "a.txt" ["defgh"] "abc" [] =
      ([] ++ [⟨"abc", "a.txt", 0⟩]) ++ c :: l ∧
      c.content = (pySliceLast "defgh" 2 ++ "defgh") ++ t :=
  chunkAccum_seeds_next_chunk_from_split 5 2 "a.txt" "defgh" [] "abc" []
    (by decide) (by decide)

/-- Claim C6: a file whose identity is already in `indexed_files` is
processed with zero Embedding Provider calls and an empty batch list, so
the caller's write loop performs zero Vector Store writes; the
`indexed_files` set only grows; and a nonempty result occurs only for an
identity that was absent and is recorded afterwards — a given file
identity is embedded and written at most once per process lifetime. -/
theorem process_file_dedup (env : FileEnv) (fp repo : String)
    (st : IndexState) :
    (∀ b, env.read = .ok b →
      mkFileId repo fp (env.sha256hex b) ∈ st.indexedFiles →
      process_file env fp repo st = ⟨[], st, 0⟩ ∧
      vectorStoreWrites (process_file env fp repo st).batches = 0) ∧
    (∀ x ∈ st.indexedFiles,
      x ∈ (process_file env fp repo st).state.indexedFiles) ∧
    ((process_file env fp repo st).batches ≠ [] →
      ∃ b, env.read = .ok b ∧
        mkFileId repo fp (env.sha256hex b) ∉ st.indexedFiles ∧
        mkFileId repo fp (env.sha256hex b) ∈
          (process_file env fp repo st).state.indexedFiles) := by
  cases hr : env.read with
  | error e =>
    rw [process_file_read_error env fp repo st e hr]
    exact ⟨fun b hb => absurd hb (by simp), fun x hx => hx,
      fun hb => absurd rfl hb⟩
  | ok b =>
    have hbeq : ∀ b2 : List Nat,
        (Except.ok b : Except String (List Nat)) = Except.ok b2 → b2 = b :=
      fun b2 h2 => (Except.ok.inj h2).symm
    cases hd : decodedText env b with
    | none =>
      rw [process_file_undecodable env fp repo st b hr hd]
      exact ⟨fun b2 _ _ => ⟨rfl, rfl⟩, fun x hx => hx,
        fun hb => absurd rfl hb⟩
    | some t =>
      by_cases ha : allowedFileExt fp
      case neg =>
        rw [process_file_not_allowed env fp repo st b t hr hd
          (Bool.not_eq_true _ ▸ ha)]
        exact ⟨fun b2 _ _ => ⟨rfl, rfl⟩, fun x hx => hx,
          fun hb => absurd rfl hb⟩
      case pos =>
        by_cases hm : mkFileId repo fp (env.sha256hex b) ∈ st.indexedFiles
        case pos =>
          rw [process_file_seen env fp repo st b t hr hd hm]
          exact ⟨fun b2 _ _ => ⟨rfl, rfl⟩, fun x hx => hx,
            fun hb => absurd rfl hb⟩
        case neg =>
          rcases he : embedChunks env.embed
              ((chunk_code env.chunkExt 1000 200 t fp).map
                (fun c => c.content)) with ⟨n, res⟩
          cases res with
          | error e =>
            rw [process_file_embed_error env fp repo st b t n e hr hd ha
              hm he]
            refine ⟨fun b2 hb2 hm2 => ?_, fun x hx => hx,
              fun hb => absurd rfl hb⟩
            exact absurd (hbeq b2 hb2 ▸ hm2) hm
          | ok embs =>
            rw [process_file_success env fp repo st b t n embs hr hd ha
              hm he]
            refine ⟨fun b2 hb2 hm2 => ?_, fun x hx => ?_, fun _ => ?_⟩
            · exact absurd (hbeq b2 hb2 ▸ hm2) hm
            · exact List.mem_cons_of_mem _ hx
            · exact ⟨b, rfl, hm, List.mem_cons_self _ _⟩

/-- Witness for claim C6: a file whose identity is already recorded is
skipped with no embedding calls and no state change. -/
theorem process_file_dedup_witness :
    process_file envReadOk "a.txt" "r" ⟨["r:a.txt:HASH"]⟩ =
      ⟨[], ⟨["r:a.txt:HASH"]⟩, 0⟩ ∧
    vectorStoreWrites (process_file envReadOk "a.txt" "r"
      ⟨["r:a.txt:HASH"]⟩).batches = 0 :=
  (process_file_dedup envReadOk "a.txt" "r" ⟨["r:a.txt:HASH"]⟩).1 [97]
    rfl (by decide)

/-- Claim C7 counterexample: with `chunk_size = 5` and
`chunk_overlap = 2 < 5`, the single-line content `"abcdefghij"` produces
the chunks `""` and `"ijabcdefghij"`, the latter of length 12 > 5 — a
split unit longer than the budget makes the produced chunk exceed
`chunk_size`. -/
theorem chunk_size_bound_counterexample :
    2 < 5 ∧
    ((chunk_code lineExternals 5 2 "abcdefghij" "b.txt").map
      (fun c => c.content)) = ["", "ijabcdefghij"] ∧
    ¬ (∀ c ∈ chunk_code lineExternals 5 2 "abcdefghij" "b.txt",
        pyLen c.content ≤ 5) := by
  decide

/-- Claim C7 (amended): every chunk produced by `chunk_code` has content
of length at most `chunk_size`, provided `chunk_overlap < chunk_size` and
every split unit of the content has length at most
`chunk_size - chunk_overlap` (the counterexample shows the bound fails
without the split-length hypothesis). -/
theorem chunk_code_bounded (ext : ChunkerExternals) (cs co : Nat)
    (content fp : String) (hco : co < cs)
    (hsplits : ∀ s ∈ computeSplits ext (mdAdjusted ext content fp) fp,
      pyLen s ≤ cs - co) :
    ∀ c ∈ chunk_code ext cs co content fp, pyLen c.content ≤ cs := by
  unfold chunk_code
  exact chunkAccum_bounded cs co fp (Nat.le_of_lt hco) _ "" []
    (by simp [pyLen]) hsplits (by simp)

/-- Witness for the amended claim C7 at a concrete input. -/
theorem chunk_code_bounded_witness :
    (⟨"abcd", "c.txt", 0⟩ : Chunk) ∈
      chunk_code lineExternals 5 2 "ab\ncd" "c.txt" ∧
    pyLen (Chunk.content ⟨"abcd", "c.txt", 0⟩) ≤ 5 :=
  ⟨by decide,
   chunk_code_bounded lineExternals 5 2 "ab\ncd" "c.txt" (by decide)
     (by decide) ⟨"abcd", "c.txt", 0⟩ (by decide)⟩

/-- Claim C8: only the Vector Store query step is retried — when the
store fails twice and succeeds on the third attempt, `process_query`
returns the successful result with exactly 3 store calls and the two
`tenacity` exponential waits; and in every environment the query
embedding is called exactly once and generation at most once (neither is
ever retried), the store is called at most 3 times, and every wait lies
between 4 and 10 seconds. -/
theorem process_query_retry_policy (env : QueryEnv) (e0 e1 : String)
    (r : StoreReply) (emb : List Int) (g : GenResult)
    (he : env.embed = .ok emb)
    (h0 : env.store 0 = .error e0)
    (h1 : env.store 1 = .error e1)
    (h2 : env.store 2 = .ok r)
    (hg : env.generate (prepare_context (replyChunks r)) = .ok g) :
    ((process_query env).1 =
      .ok ⟨g.response,
           (replyChunks r).map (fun c =>
             ⟨c.metadata.file_path, c.metadata.repo_name,
              c.metadata.file_type⟩),
           g.model, (replyChunks r).length,
           g.prompt_tokens, g.completion_tokens⟩ ∧
     (process_query env).2.storeCalls = 3 ∧
     (process_query env).2.storeWaits =
       [tenacityWaitExp 1, tenacityWaitExp 2]) ∧
    (∀ env2 : QueryEnv,
      (process_query env2).2.embedCalls = 1 ∧
      (process_query env2).2.genCalls ≤ 1 ∧
      (process_query env2).2.storeCalls ≤ 3 ∧
      ∀ w ∈ (process_query env2).2.storeWaits, 4 ≤ w ∧ w ≤ 10) := by
  refine ⟨?_, process_query_call_bounds⟩
  have hret := retryCalls_two_failures env.store e0 e1 r h0 h1 h2
  unfold process_query
  rw [he]
  unfold retrieve_relevant_chunks
  rw [hret]
  simp [hg]

/-- Witness for claim C8 at a concrete flaky-store environment: 3 store
calls, waits of 4 seconds each, successful answer. -/
theorem process_query_retry_policy_witness :
    (process_query envFlaky).1 =
      .ok ⟨"ans", [⟨"f.py", "repoA", "py"⟩], "m", 1, none, none⟩ ∧
    (process_query envFlaky).2.storeCalls = 3 ∧
    (process_query envFlaky).2.storeWaits = [4, 4] := by
  have h := (process_query_retry_policy envFlaky "down" "down2"
    ⟨["doc"], [⟨"f.py", "repoA", "py"⟩]⟩ [0] ⟨"ans", "m", none, none⟩
    rfl rfl rfl rfl rfl).1
  exact ⟨h.1, h.2.1, h.2.2⟩

/-- Claim C9: the `_run_indexing` loop never terminates — every iteration
has a defined successor (`run_indexing_step` returns `some` on every pass
outcome, the `except Exception` handler letting no exception escape).  On
a failed pass the loop sleeps `15 * 60` seconds and leaves the state
unchanged (retrying the pass); on a successful pass it records the
completion time in `_last_indexed` and sleeps `6 * 60 * 60` seconds. -/
theorem run_indexing_never_terminates (outcome : Nat → PassResult)
    (time : Nat → Nat) (n : Nat) :
    (run_indexing_step (time n) (run_indexing_trace outcome time n)
      (outcome n)).isSome = true ∧
    (outcome n = .err →
      run_indexing_step (time n) (run_indexing_trace outcome time n)
        (outcome n) =
        some (run_indexing_trace outcome time n, 15 * 60) ∧
      run_indexing_trace outcome time (n + 1) =
        run_indexing_trace outcome time n) ∧
    (outcome n = .ok →
      run_indexing_step (time n) (run_indexing_trace outcome time n)
        (outcome n) = some (⟨some (time n)⟩, 6 * 60 * 60) ∧
      run_indexing_trace outcome time (n + 1) = ⟨some (time n)⟩) := by
  cases h : outcome n with
  | ok =>
    refine ⟨?_, ?_, ?_⟩ <;>
      simp [run_indexing_step, run_indexing_trace, h]
  | err =>
    refine ⟨?_, ?_, ?_⟩ <;>
      simp [run_indexing_step, run_indexing_trace, h]

/-- Witness for claim C9 at concrete outcome streams, exercising both the
failure and the success branch. -/
theorem run_indexing_never_terminates_witness :
    run_indexing_step 0 ⟨none⟩ PassResult.err = some (⟨none⟩, 15 * 60) ∧
    run_indexing_step 0 ⟨none⟩ PassResult.ok =
      some (⟨some 0⟩, 6 * 60 * 60) :=
  ⟨((run_indexing_never_terminates (fun _ => PassResult.err)
      (fun _ => 0) 0).2.1 rfl).1,
   ((run_indexing_never_terminates (fun _ => PassResult.ok)
      (fun _ => 0) 0).2.2 rfl).1⟩

/-- Claim C10: `_process_file` is atomic with respect to the dedup state:
a read error, an undecodable file, or an embedding failure each leave the
`indexed_files` set unchanged and contribute an empty result, and the set
changes only when every chunk of the file has been embedded successfully
(the embeddings list then matches the chunk list in length). -/
theorem process_file_atomic (env : FileEnv) (fp repo : String)
    (st : IndexState) :
    (∀ e, env.read = .error e →
      process_file env fp repo st = ⟨[], st, 0⟩) ∧
    (∀ b, env.read = .ok b → decodedText env b = none →
      process_file env fp repo st = ⟨[], st, 0⟩) ∧
    (∀ b t n e, env.read = .ok b → decodedText env b = some t →
      embedChunks env.embed
        ((chunk_code env.chunkExt 1000 200 t fp).map (fun c => c.content)) =
          (n, .error e) →
      (process_file env fp repo st).batches = [] ∧
      (process_file env fp repo st).state = st) ∧
    ((process_file env fp repo st).state ≠ st →
      ∃ b t n embs, env.read = .ok b ∧ decodedText env b = some t ∧
        embedChunks env.embed
          ((chunk_code env.chunkExt 1000 200 t fp).map
            (fun c => c.content)) = (n, .ok embs) ∧
        embs.length = (chunk_code env.chunkExt 1000 200 t fp).length) := by
  refine ⟨fun e he => process_file_read_error env fp repo st e he,
    fun b hb hd => process_file_undecodable env fp repo st b hb hd,
    fun b t n e hb hd he => ?_, fun hst => ?_⟩
  · by_cases ha : allowedFileExt fp
    case neg =>
      rw [process_file_not_allowed env fp repo st b t hb hd
        (Bool.not_eq_true _ ▸ ha)]
      exact ⟨rfl, rfl⟩
    case pos =>
      by_cases hm : mkFileId repo fp (env.sha256hex b) ∈ st.indexedFiles
      case pos =>
        rw [process_file_seen env fp repo st b t hb hd hm]
        exact ⟨rfl, rfl⟩
      case neg =>
        rw [process_file_embed_error env fp repo st b t n e hb hd ha hm he]
        exact ⟨rfl, rfl⟩
  · cases hr : env.read with
    | error e =>
      rw [process_file_read_error env fp repo st e hr] at hst
      exact absurd rfl hst
    | ok b =>
      cases hd : decodedText env b with
      | none =>
        rw [process_file_undecodable env fp repo st b hr hd] at hst
        exact absurd rfl hst
      | some t =>
        by_cases ha : allowedFileExt fp
        case neg =>
          rw [process_file_not_allowed env fp repo st b t hr hd
            (Bool.not_eq_true _ ▸ ha)] at hst
          exact absurd rfl hst
        case pos =>
          by_cases hm :
            mkFileId repo fp (env.sha256hex b) ∈ st.indexedFiles
          case pos =>
            rw [process_file_seen env fp repo st b t hr hd hm] at hst
            exact absurd rfl hst
          case neg =>
            rcases he : embedChunks env.embed
                ((chunk_code env.chunkExt 1000 200 t fp).map
                  (fun c => c.content)) with ⟨n, res⟩
            cases res with
            | error e =>
              rw [process_file_embed_error env fp repo st b t n e hr hd
                ha hm he] at hst
              exact absurd rfl hst
            | ok embs =>
              refine ⟨b, t, n, embs, rfl, hd, he, ?_⟩
              have := embedChunks_ok_length env.embed
                ((chunk_code env.chunkExt 1000 200 t fp).map
                  (fun c => c.content)) n embs he
              simpa using this

/-- Witness for claim C10: a read failure yields an empty result and an
unchanged state. -/
theorem process_file_atomic_witness :
    process_file envReadFail "a.txt" "r" ⟨[]⟩ = ⟨[], ⟨[]⟩, 0⟩ :=
  (process_file_atomic envReadFail "a.txt" "r" ⟨[]⟩).1 "OSError" rfl
